import Mathlib

/-!
Verification development for the Si4707 command layer
(`RPiNWR/Si4707/commands.py`).

The Python source is shallowly embedded: each command's `do_command0`
becomes a pure Lean function over an explicit controller state, the bus
becomes an oracle of byte-list responses, emitted events become values
accumulated in a list, and raised exceptions become `Except`/`Option`
results.  Machine bytes are `Nat` with explicit bit operations matching
the source expressions; timestamps are exact rationals.
-/

set_option autoImplicit false

namespace Si4707

/-- Timestamp-or-infinity, for `radio.same_timeout` which the source sets
to `float("inf")` in the dispatch path.  Finite values are exact
rationals standing for the float timestamps of the source. -/
inductive XTime where
  | fin (t : ℚ)
  | inf
deriving DecidableEq, Repr

/-- Events fired through `radio._fire_event` by the commands embedded
here.  SAME message repetitions are carried as (symbol-codes,
confidence) pairs; the source stores the symbols as a string of `chr`
codes, embedded here as the list of those codes. -/
inductive Event where
  | radioPower (isOn : Bool)
  | readyToTune
  | endOfMessage
  | sameHeaderReceived (msgs : List (List ℕ × List ℕ))
  | sameMessageReceived (m : ℕ)
  | invalidSameMessageReceived (msgs : List (List ℕ × List ℕ))
deriving DecidableEq, Repr

/-- The mutable controller fields touched by `SameInterruptCheck`
(the `radio` collaborator of the source). -/
structure Radio where
  radio_power : Bool
  same_messages : List (List ℕ × List ℕ)
  same_timeout : XTime
  last_EOM : ℚ
deriving DecidableEq, Repr

/-- Consensus decoder collaborator.  Modelled from the spec: the
`SAME.average_message` / `SAME.SAMEMessage` pipeline lives outside this
module; per §6 it is `decode(repetitions) → Message`, failing with a
decode error (`ValueError`) on malformed input.  `some m` is a decoded
message (identified abstractly by a number), `none` is the decode
error. -/
def SAMEDecoder : Type := List (List ℕ × List ℕ) → Option ℕ

/-- Embeds line 431's first request-payload byte, the source expression
`clearbuf < 1 | intack`.  Python's precedence parses it as
`clearbuf < (1 | intack)` with booleans coerced to 0/1, and the
resulting boolean is sent as byte 1/0. -/
def statusRequestByte (clearbuf intack : Bool) : ℕ :=
  if (if clearbuf then 1 else 0) < (1 ||| (if intack then 1 else 0)) then 1 else 0

/-- Intended request byte. Modelled from the spec: "bit 0 = clear-buffer
request, bit 1 = interrupt-acknowledge request" (§9, open question on
the operator-precedence pattern at line 431). -/
def intendedStatusRequestByte (clearbuf intack : Bool) : ℕ :=
  (if clearbuf then 1 else 0) ||| (if intack then 2 else 0)

/-- Request payload of a single `__get_status` bus write:
`[clearbuf < 1 | intack, readaddr]`. -/
def getStatusWrite (clearbuf intack : Bool) (readaddr : ℕ) : List ℕ :=
  [statusRequestByte clearbuf intack, readaddr]

/-- Decoded form of a 14-byte `WB_SAME_STATUS` response, as built by
`SameInterruptCheck.__get_status` (lines 438-447). -/
structure SameStatus where
  eomdet : Bool
  somdet : Bool
  predet : Bool
  hdrrdy : Bool
  state : ℕ
  msglen : ℕ
  confidence : List ℕ
  message : List ℕ
deriving DecidableEq, Repr

/-- Embeds the response decoding of `__get_status` (lines 433-447).
`data[i]` is embedded as `data.getD i 0`; the claims only use full
14-byte frames, where the two coincide.  `data[6:14]` is Python slice
semantics, i.e. drop 6 then take 8.  The confidence entry for symbol
`i` is `data[int((7 - i) / 4) + 4] >> (i % 4 * 2) & 0x3`. -/
def decodeStatus (data : List ℕ) : SameStatus where
  eomdet := (data.getD 1 0 &&& 8) != 0
  somdet := (data.getD 1 0 &&& 4) != 0
  predet := (data.getD 1 0 &&& 2) != 0
  hdrrdy := (data.getD 1 0 &&& 1) != 0
  state := data.getD 2 0
  msglen := data.getD 3 0
  confidence := (List.range 8).map fun i => (data.getD ((7 - i) / 4 + 4) 0 >>> (i % 4 * 2)) &&& 0x3
  message := (data.drop 6).take 8

/-- Result of the header-assembly loop (lines 398-401). -/
structure LoopOut where
  msg : List ℕ
  conf : List ℕ
  nextIdx : ℕ
  writes : List (List ℕ)
deriving DecidableEq, Repr

/-- Embeds the `while len(msg) < msg_len` loop of lines 398-401: each
iteration issues `__get_status(radio, readaddr=len(msg))` and appends
the chunk's MESSAGE and CONFIDENCE fields.  `statuses k` is the bus
oracle: the 14-byte response to the (k+1)-th status read of this
command execution.  The source loop is unbounded; the `fuel` argument
only bounds it in Lean, and a fuel of `msg_len + 1` is enough to reach
the loop's exit condition whenever every chunk contributes at least one
symbol (each chunk contributes exactly 8 on full 14-byte frames; with
an empty chunk the source would spin forever re-reading the same
offset). -/
def sicLoop (statuses : ℕ → List ℕ) : ℕ → List ℕ → List ℕ → ℕ → ℕ → LoopOut
  | idx, msg, conf, _, 0 => ⟨msg, conf, idx, []⟩
  | idx, msg, conf, msgLen, fuel + 1 =>
    if msg.length < msgLen then
      let st := decodeStatus (statuses idx)
      let rest := sicLoop statuses (idx + 1) (msg ++ st.message) (conf ++ st.confidence) msgLen fuel
      ⟨rest.msg, rest.conf, rest.nextIdx, getStatusWrite false false msg.length :: rest.writes⟩
    else ⟨msg, conf, idx, []⟩

/-- Result of the dispatch block (lines 373-383). -/
structure DispatchOut where
  radio : Radio
  events : List Event
  decodeCalls : List (List (List ℕ × List ℕ))
deriving DecidableEq, Repr

/-- Embeds the dispatch block of `SameInterruptCheck.do_command0`
(lines 373-383): set `same_timeout` to infinity; if the reception
buffer is non-empty, hand it to the consensus decoder, clear it, and
fire either the decoded-message event or — on the decoder's
`ValueError`, caught by the `try`/`except` — the malformed-message
event carrying the raw repetitions. -/
def sicDispatch (decode : SAMEDecoder) (dispatch : Bool) (r : Radio) : DispatchOut :=
  if dispatch then
    let r1 : Radio := { r with same_timeout := XTime.inf }
    if 0 < r1.same_messages.length then
      let messages := r1.same_messages
      let r2 : Radio := { r1 with same_messages := [] }
      match decode messages with
      | some m => ⟨r2, [Event.sameMessageReceived m], [messages]⟩
      | none => ⟨r2, [Event.invalidSameMessageReceived messages], [messages]⟩
    else ⟨r1, [], []⟩
  else ⟨r, [], []⟩

/-- Result of the flag-driven phase (lines 385-407). -/
structure PhaseOut where
  radio : Radio
  events : List Event
  writes : List (List ℕ)
deriving DecidableEq, Repr

/-- Embeds the status read and flag-driven processing of
`SameInterruptCheck.do_command0` (lines 385-407).  The first
`__get_status` uses the command's `intack`/`clearbuf` flags at read
offset 0; with `intack` set, exactly one of the EOMDET / PREDET /
HDRRDY branches runs (in that `elif` order).  `now` stands for each
`time.time()` call of the source during this execution. -/
def sicStatusPhase (statuses : ℕ → List ℕ) (now : ℚ) (intack clearbuf : Bool)
    (r : Radio) : PhaseOut :=
  let status := decodeStatus (statuses 0)
  let w0 := getStatusWrite clearbuf intack 0
  if intack then
    if status.eomdet then
      if now - r.last_EOM > 5 then
        ⟨{ r with same_timeout := XTime.fin 0, last_EOM := now }, [Event.endOfMessage], [w0]⟩
      else
        ⟨{ r with same_timeout := XTime.fin 0 }, [], [w0]⟩
    else if status.predet then
      ⟨{ r with same_timeout := XTime.fin (now + 6) }, [], [w0]⟩
    else if status.hdrrdy then
      let lp := sicLoop statuses 1 status.message status.confidence status.msglen (status.msglen + 1)
      let msg := lp.msg.take (status.msglen + 1)
      let conf := lp.conf.take (status.msglen + 1)
      let buf := r.same_messages ++ [(msg, conf)]
      ⟨{ r with same_messages := buf, same_timeout := XTime.fin (now + 6) },
        [Event.sameHeaderReceived buf],
        w0 :: lp.writes ++ [getStatusWrite true false 0]⟩
    else ⟨r, [], [w0]⟩
  else ⟨r, [], [w0]⟩

/-- Complete result of one `SameInterruptCheck.do_command0` run. -/
structure SICOut where
  radio : Radio
  events : List Event
  writes : List (List ℕ)
  decodeCalls : List (List (List ℕ × List ℕ))
deriving DecidableEq, Repr

/-- Embeds `SameInterruptCheck.do_command0` (lines 372-407) for a
command built as `SameInterruptCheck(intack, clearbuf, dispatch)`.
Per `__init__` (line 369), the effective clear-buffer flag of the first
status read is `clearbuf or dispatch_message`.  The dispatch block runs
first, then the status read and flag processing. -/
def sicRun (decode : SAMEDecoder) (statuses : ℕ → List ℕ) (now : ℚ)
    (intack clearbuf dispatch : Bool) (r : Radio) : SICOut :=
  let d := sicDispatch decode dispatch r
  let s := sicStatusPhase statuses now intack (clearbuf || dispatch) d.radio
  ⟨s.radio, d.events ++ s.events, s.writes, d.decodeCalls⟩

/-- Confidence region of a 14-byte `WB_SAME_STATUS` frame: the bytes
from offset 4, which line 436 indexes as `data[int((7 - i) / 4) + 4]`. -/
def confRegion (data : List ℕ) : List ℕ := data.drop 4

/-- Packing of eight 2-bit confidence values `c 0 .. c 7` into a
14-byte frame by the layout of §4.1: symbol `i` occupies byte
`(7 - i) / 4` of the confidence region at bit offset `(i % 4) * 2`,
four symbols of confidence per byte.  This is the encode direction of
the claimed round trip (the decode direction is `decodeStatus`). -/
def encodeConfidence (c : Fin 8 → ℕ) : List ℕ :=
  [0, 0, 0, 0,
    c 4 + 4 * c 5 + 16 * c 6 + 64 * c 7,
    c 0 + 4 * c 1 + 16 * c 2 + 64 * c 3,
    0, 0, 0, 0, 0, 0, 0, 0]

/-- Construction-time range check of `TuneFrequency.__init__`
(line 265): `162.4 <= frequency <= 162.55`, else `ValueError`. -/
def tuneFrequencyValid (f : ℚ) : Bool :=
  decide (162.4 ≤ f) && decide (f ≤ 162.55)

/-- Embeds line 267, `self.frequency = int(400 * frequency)`.  Python's
`int()` truncates toward zero, which equals the floor on the positive
valid range; the source's floats are embedded as exact rationals. -/
def tuneEncode (f : ℚ) : ℤ := ⌊400 * f⌋

/-- Signed interpretation of one response byte (the `b` fields of the
`struct.unpack` format strings). -/
def toSigned8 (b : ℕ) : ℤ := if b < 128 then (b : ℤ) else (b : ℤ) - 256

/-- Fields extracted by `TuneStatus.do_command0` (line 301) from the
6-byte response with format `">xxHbb"`: a big-endian 16-bit frequency
at offset 2, then signed rssi and snr bytes. -/
structure TuneStatusData where
  frequency : ℕ
  rssi : ℤ
  snr : ℤ
deriving DecidableEq, Repr

/-- Embeds the response decoding of `TuneStatus.do_command0`
(lines 300-301). -/
def tuneStatusDecode (bl : List ℕ) : TuneStatusData :=
  ⟨256 * bl.getD 2 0 + bl.getD 3 0, toSigned8 (bl.getD 4 0), toSigned8 (bl.getD 5 0)⟩

/-- Embeds the tail of `TuneFrequency.do_command0` (lines 280-286):
after seek/tune completes, an acknowledged `TuneStatus` is read from
the bus (response bytes `bl`); a confirmed frequency different from the
requested one raises `ValueError` ("Frequency didn't stick"), otherwise
the command returns `(rssi, snr, frequency / 400.0)`. -/
def tuneFrequencyFinish (reqFreq : ℤ) (bl : List ℕ) : Except Unit (ℤ × ℤ × ℚ) :=
  let ts := tuneStatusDecode bl
  if (ts.frequency : ℤ) ≠ reqFreq then Except.error ()
  else Except.ok (ts.rssi, ts.snr, (ts.frequency : ℚ) / 400)

/-- The concrete command classes of the module. -/
inductive CmdKind where
  | powerUp
  | patchCommand
  | getRevision
  | powerDown
  | setProperty
  | getProperty
  | tuneFrequency
  | tuneStatus
  | receivedSignalQualityCheck
  | alertToneCheck
  | sameInterruptCheck
deriving DecidableEq, Repr

/-- Whether the command's class inherits `CommandRequiringPowerUp`,
read off the class declarations of the source: `PowerUp` (line 96)
extends `Command` directly and `PatchCommand` (line 154) extends
`PowerUp`; every other command extends `CommandRequiringPowerUp`
(lines 197-364), including `PowerDown` (line 218). -/
def requiresPowerUp : CmdKind → Bool
  | CmdKind.powerUp => false
  | CmdKind.patchCommand => false
  | _ => true

/-- Failure causes for a command execution.  `notPowered` is the spec
taxonomy's `NotPoweredError`; the source raises it as
`ValueError("Attempted ... when powered down")` at line 204. -/
inductive CmdFailure where
  | notPowered
  | commandError
deriving DecidableEq, Repr

/-- Embeds `CommandRequiringPowerUp.do_command` (lines 202-205) around
an abstract command body: a guarded command submitted while the power
flag is false raises before any bus operation; otherwise the body runs
and performs its own bus writes.  `body` is the pair (bus writes the
body would perform, its outcome). -/
def runWithPowerGuard (k : CmdKind) (power : Bool)
    (body : List (List ℕ) × Except CmdFailure ℕ) : List (List ℕ) × Except CmdFailure ℕ :=
  if requiresPowerUp k && !power then ([], Except.error CmdFailure.notPowered)
  else body

/-- Per-execution fields of `Command` (lines 49-52) that
`Command.do_command` finalizes: the attached future (identified
abstractly by a number), the one-shot result slot, whether
`self.exception` was set, and the completion timestamp. -/
structure CommandState where
  future : Option ℕ
  result : Option ℕ
  exceptionStored : Bool
  time_complete : Option ℚ
deriving DecidableEq, Repr

/-- Observable outcome of one `Command.do_command` run: the final
per-execution fields, the value passed to `future.result` (if any),
whether `future.exception` was called, and whether the failure was
re-raised to the executor. -/
structure DeliveredOutcome where
  state : CommandState
  futureResult : Option ℕ
  futureException : Bool
  raised : Bool
deriving DecidableEq, Repr

/-- Embeds `Command.do_command` (lines 55-72).  `body` is the outcome
of `self.do_command0(radio)`: a result value or a raised exception.
On success the value is stored and, if a future is attached, delivered
through it; on failure the exception is stored and either delivered
through the future or — when none is attached — re-raised.  The
`finally` block releases the future and records the completion time
unconditionally.  (The source's replacement of a `result == self` value
by the string `"self"` is a printing detail of the Python object graph
with no counterpart for the abstract result values used here.) -/
def doCommand (cs : CommandState) (body : Except Unit ℕ) (now : ℚ) : DeliveredOutcome :=
  match body with
  | Except.ok v =>
    { state := { cs with result := some v, future := none, time_complete := some now },
      futureResult := if cs.future.isSome then some v else none,
      futureException := false,
      raised := false }
  | Except.error _ =>
    { state := { cs with exceptionStored := true, future := none, time_complete := some now },
      futureResult := none,
      futureException := cs.future.isSome,
      raised := !cs.future.isSome }

/-- Example 14-byte status frame with the HDRRDY flag set, state 0,
declared message length 5, all-zero confidence and the eight symbol
bytes 65..72. -/
def hdrFrame5 : List ℕ := [0, 1, 0, 5, 0, 0, 65, 66, 67, 68, 69, 70, 71, 72]

/-- Example 14-byte status frame with only the EOMDET flag set. -/
def eomFrame : List ℕ := [0, 8, 0, 0, 0, 0, 0, 0, 0, 0, 0, 0, 0, 0]

/-- Example 14-byte status frame with no flags set. -/
def idleFrame : List ℕ := [0, 0, 0, 0, 0, 0, 0, 0, 0, 0, 0, 0, 0, 0]

/-- Example controller state: powered, empty reception buffer, zero
timestamps. -/
def exRadio : Radio := ⟨true, [], XTime.fin 0, 0⟩

/-- Example controller state with one repetition in the reception
buffer. -/
def exRadioBuf : Radio := ⟨true, [([65], [2])], XTime.fin 0, 0⟩

/-- Example run chain for the three-headers-then-EOM scenario, all
polls with interrupt-acknowledge set and no dispatch. -/
def c8poll1 : SICOut := sicRun (fun _ => some 0) (fun _ => hdrFrame5) 0 true false false exRadio

def c8poll2 : SICOut := sicRun (fun _ => some 0) (fun _ => hdrFrame5) 0 true false false c8poll1.radio

def c8poll3 : SICOut := sicRun (fun _ => some 0) (fun _ => hdrFrame5) 0 true false false c8poll2.radio

def c8poll4 : SICOut := sicRun (fun _ => some 0) (fun _ => eomFrame) 0 true false false c8poll3.radio

/-- Example dispatch poll (as `AlertToneCheck` issues it) after the
chain above. -/
def c8poll5 : SICOut := sicRun (fun _ => some 0) (fun _ => idleFrame) 0 false false true c8poll4.radio

/-- Example confidence assignment for the round-trip witness. -/
def exConf : Fin 8 → ℕ := fun j => j.val % 4

/-- Example command state with a future attached. -/
def exCmdState : CommandState := ⟨some 1, none, false, none⟩

lemma confidence_length (data : List ℕ) : (decodeStatus data).confidence.length = 8 := by
  simp [decodeStatus]

lemma message_length_of_14 (data : List ℕ) (h : data.length = 14) :
    (decodeStatus data).message.length = 8 := by
  simp [decodeStatus, h]

lemma sicLoop_stop (statuses : ℕ → List ℕ) (idx : ℕ) (msg conf : List ℕ) (msgLen fuel : ℕ)
    (h : msgLen ≤ msg.length) :
    sicLoop statuses idx msg conf msgLen fuel = ⟨msg, conf, idx, []⟩ := by
  cases fuel with
  | zero => rfl
  | succ n => simp [sicLoop, Nat.not_lt.mpr h]

lemma sicLoop_step (statuses : ℕ → List ℕ) (idx : ℕ) (msg conf : List ℕ) (msgLen fuel : ℕ)
    (h : msg.length < msgLen) :
    sicLoop statuses idx msg conf msgLen (fuel + 1)
      = { msg := (sicLoop statuses (idx + 1) (msg ++ (decodeStatus (statuses idx)).message)
            (conf ++ (decodeStatus (statuses idx)).confidence) msgLen fuel).msg,
          conf := (sicLoop statuses (idx + 1) (msg ++ (decodeStatus (statuses idx)).message)
            (conf ++ (decodeStatus (statuses idx)).confidence) msgLen fuel).conf,
          nextIdx := (sicLoop statuses (idx + 1) (msg ++ (decodeStatus (statuses idx)).message)
            (conf ++ (decodeStatus (statuses idx)).confidence) msgLen fuel).nextIdx,
          writes := getStatusWrite false false msg.length
            :: (sicLoop statuses (idx + 1) (msg ++ (decodeStatus (statuses idx)).message)
              (conf ++ (decodeStatus (statuses idx)).confidence) msgLen fuel).writes } := by
  simp [sicLoop, if_pos h]

lemma sicLoop_assembles (statuses : ℕ → List ℕ) (h14 : ∀ k, (statuses k).length = 14) :
    ∀ (fuel : ℕ) (msg conf : List ℕ) (idx msgLen : ℕ),
      msgLen ≤ msg.length + 8 * fuel →
      ∃ n, (sicLoop statuses idx msg conf msgLen fuel).msg.length = msg.length + 8 * n ∧
        (sicLoop statuses idx msg conf msgLen fuel).conf.length = conf.length + 8 * n ∧
        msgLen ≤ (sicLoop statuses idx msg conf msgLen fuel).msg.length ∧
        (sicLoop statuses idx msg conf msgLen fuel).writes
          = (List.range n).map fun j => getStatusWrite false false (msg.length + 8 * j) := by
  intro fuel
  induction fuel with
  | zero =>
    intro msg conf idx msgLen h
    exact ⟨0, by simp [sicLoop], by simp [sicLoop], by simpa [sicLoop] using h, by simp [sicLoop]⟩
  | succ f ih =>
    intro msg conf idx msgLen h
    by_cases hlt : msg.length < msgLen
    · have hmsg : (msg ++ (decodeStatus (statuses idx)).message).length = msg.length + 8 := by
        simp [message_length_of_14 _ (h14 idx)]
      have hconf : (conf ++ (decodeStatus (statuses idx)).confidence).length = conf.length + 8 := by
        simp [confidence_length]
      have hbound : msgLen ≤ (msg ++ (decodeStatus (statuses idx)).message).length + 8 * f := by
        rw [hmsg]; omega
      obtain ⟨n, h1, h2, h3, h4⟩ := ih (msg ++ (decodeStatus (statuses idx)).message)
        (conf ++ (decodeStatus (statuses idx)).confidence) (idx + 1) msgLen hbound
      rw [sicLoop_step statuses idx msg conf msgLen f hlt]
      refine ⟨n + 1, ?_, ?_, ?_, ?_⟩
      · simp only []
        rw [h1, hmsg]; ring
      · simp only []
        rw [h2, hconf]; ring
      · simp only []
        omega
      · simp only []
        rw [h4, hmsg, List.range_succ_eq_map, List.map_cons, List.map_map]
        refine congrArg₂ _ (by simp) ?_
        refine List.map_congr_left fun j _ => ?_
        simp only [Function.comp]
        congr 1
        omega
    · refine ⟨0, ?_, ?_, ?_, ?_⟩ <;>
        simp [sicLoop_stop statuses idx msg conf msgLen _ (Nat.not_lt.mp hlt), Nat.not_lt.mp hlt]



lemma statusPhase_noack (statuses : ℕ → List ℕ) (now : ℚ) (clearbuf : Bool) (r : Radio) :
    sicStatusPhase statuses now false clearbuf r = ⟨r, [], [getStatusWrite clearbuf false 0]⟩ := by
  simp [sicStatusPhase]

lemma statusPhase_eomdet (statuses : ℕ → List ℕ) (now : ℚ) (clearbuf : Bool) (r : Radio)
    (he : (decodeStatus (statuses 0)).eomdet = true) :
    (sicStatusPhase statuses now true clearbuf r).radio.same_messages = r.same_messages ∧
    (sicStatusPhase statuses now true clearbuf r).radio.same_timeout = XTime.fin 0 ∧
    (now - r.last_EOM > 5 →
      sicStatusPhase statuses now true clearbuf r
        = ⟨{ r with same_timeout := XTime.fin 0, last_EOM := now },
            [Event.endOfMessage], [getStatusWrite clearbuf true 0]⟩) ∧
    (¬ (now - r.last_EOM > 5) →
      sicStatusPhase statuses now true clearbuf r
        = ⟨{ r with same_timeout := XTime.fin 0 }, [], [getStatusWrite clearbuf true 0]⟩) := by
  by_cases ht : now - r.last_EOM > 5 <;>
    simp [sicStatusPhase, he, ht]

lemma statusPhase_predet (statuses : ℕ → List ℕ) (now : ℚ) (clearbuf : Bool) (r : Radio)
    (he : (decodeStatus (statuses 0)).eomdet = false)
    (hp : (decodeStatus (statuses 0)).predet = true) :
    sicStatusPhase statuses now true clearbuf r
      = ⟨{ r with same_timeout := XTime.fin (now + 6) }, [], [getStatusWrite clearbuf true 0]⟩ := by
  simp [sicStatusPhase, he, hp]

lemma statusPhase_hdrrdy (statuses : ℕ → List ℕ) (h14 : ∀ k, (statuses k).length = 14)
    (now : ℚ) (clearbuf : Bool) (r : Radio)
    (hh : (decodeStatus (statuses 0)).hdrrdy = true)
    (he : (decodeStatus (statuses 0)).eomdet = false)
    (hp : (decodeStatus (statuses 0)).predet = false) :
    ∃ (msgFull confFull : List ℕ) (n : ℕ),
      msgFull.length = 8 + 8 * n ∧
      confFull.length = 8 + 8 * n ∧
      (decodeStatus (statuses 0)).msglen ≤ msgFull.length ∧
      sicStatusPhase statuses now true clearbuf r
        = ⟨{ r with
              same_messages := r.same_messages
                ++ [(msgFull.take ((decodeStatus (statuses 0)).msglen + 1),
                     confFull.take ((decodeStatus (statuses 0)).msglen + 1))],
              same_timeout := XTime.fin (now + 6) },
            [Event.sameHeaderReceived (r.same_messages
              ++ [(msgFull.take ((decodeStatus (statuses 0)).msglen + 1),
                   confFull.take ((decodeStatus (statuses 0)).msglen + 1))])],
            getStatusWrite clearbuf true 0
              :: ((List.range n).map fun j => getStatusWrite false false (8 + 8 * j))
              ++ [getStatusWrite true false 0]⟩ := by
  have hm0 : (decodeStatus (statuses 0)).message.length = 8 := message_length_of_14 _ (h14 0)
  have hc0 : (decodeStatus (statuses 0)).confidence.length = 8 := confidence_length _
  have hbound : (decodeStatus (statuses 0)).msglen
      ≤ (decodeStatus (statuses 0)).message.length + 8 * ((decodeStatus (statuses 0)).msglen + 1) := by
    rw [hm0]; omega
  obtain ⟨n, h1, h2, h3, h4⟩ := sicLoop_assembles statuses h14 ((decodeStatus (statuses 0)).msglen + 1)
    (decodeStatus (statuses 0)).message (decodeStatus (statuses 0)).confidence 1
    (decodeStatus (statuses 0)).msglen hbound
  refine ⟨(sicLoop statuses 1 (decodeStatus (statuses 0)).message (decodeStatus (statuses 0)).confidence
      (decodeStatus (statuses 0)).msglen ((decodeStatus (statuses 0)).msglen + 1)).msg,
    (sicLoop statuses 1 (decodeStatus (statuses 0)).message (decodeStatus (statuses 0)).confidence
      (decodeStatus (statuses 0)).msglen ((decodeStatus (statuses 0)).msglen + 1)).conf,
    n, ?_, ?_, h3, ?_⟩
  · rw [h1, hm0]
  · rw [h2, hc0]
  · simp only [sicStatusPhase, he, hp, hh, Bool.false_eq_true, if_false, if_true]
    rw [h4, hm0]



lemma sicRun_no_dispatch (decode : SAMEDecoder) (statuses : ℕ → List ℕ) (now : ℚ)
    (intack clearbuf : Bool) (r : Radio) :
    sicRun decode statuses now intack clearbuf false r
      = ⟨(sicStatusPhase statuses now intack clearbuf r).radio,
          (sicStatusPhase statuses now intack clearbuf r).events,
          (sicStatusPhase statuses now intack clearbuf r).writes, []⟩ := by
  simp [sicRun, sicDispatch]

lemma sicRun_decodeCalls (decode : SAMEDecoder) (statuses : ℕ → List ℕ) (now : ℚ)
    (intack clearbuf dispatch : Bool) (r : Radio) :
    (sicRun decode statuses now intack clearbuf dispatch r).decodeCalls
      = (sicDispatch decode dispatch r).decodeCalls := rfl

lemma sicDispatch_nonempty (decode : SAMEDecoder) (r : Radio) (h : r.same_messages ≠ []) :
    (sicDispatch decode true r).decodeCalls = [r.same_messages] ∧
    (sicDispatch decode true r).radio.same_messages = [] ∧
    (sicDispatch decode true r).radio.same_timeout = XTime.inf := by
  have hlen : 0 < r.same_messages.length := List.length_pos.mpr h
  cases hd : decode r.same_messages <;> simp [sicDispatch, hlen, hd]

/-- C9: the source expression for the first request-payload byte,
`clearbuf < 1 | intack` (line 431), diverges from the intended
"bit 0 = clear-buffer, bit 1 = interrupt-acknowledge" encoding at every
flag combination: it evaluates to 1 exactly when `clearbuf` is false
and ignores `intack` entirely. -/
theorem claim_C9_request_byte_bug :
    statusRequestByte true true = 0 ∧ intendedStatusRequestByte true true = 3 ∧
    statusRequestByte false false = 1 ∧ intendedStatusRequestByte false false = 0 ∧
    (∀ clearbuf intack : Bool,
      statusRequestByte clearbuf intack = if clearbuf then 0 else 1) ∧
    (∀ clearbuf intack : Bool,
      statusRequestByte clearbuf intack ≠ intendedStatusRequestByte clearbuf intack) := by
  decide

/-- C10: a `SameInterruptCheck` with the interrupt-acknowledge flag
false performs no flag-driven processing: the controller state, the
emitted events and the decode calls are exactly those of the dispatch
path, the only bus traffic of the flag phase is the single status
read, and with `dispatch_message` also false the whole command leaves
the controller untouched and emits nothing. -/
theorem claim_C10_no_intack_no_processing (decode : SAMEDecoder) (statuses : ℕ → List ℕ)
    (now : ℚ) (clearbuf dispatch : Bool) (r : Radio) :
    (sicRun decode statuses now false clearbuf dispatch r).radio
      = (sicDispatch decode dispatch r).radio ∧
    (sicRun decode statuses now false clearbuf dispatch r).events
      = (sicDispatch decode dispatch r).events ∧
    (sicRun decode statuses now false clearbuf dispatch r).decodeCalls
      = (sicDispatch decode dispatch r).decodeCalls ∧
    (sicRun decode statuses now false clearbuf dispatch r).writes
      = [getStatusWrite (clearbuf || dispatch) false 0] ∧
    (dispatch = false →
      (sicRun decode statuses now false clearbuf dispatch r).radio = r ∧
      (sicRun decode statuses now false clearbuf dispatch r).events = []) := by
  refine ⟨?_, ?_, rfl, ?_, ?_⟩
  · simp [sicRun, statusPhase_noack]
  · simp [sicRun, statusPhase_noack]
  · simp [sicRun, statusPhase_noack]
  · rintro rfl
    simp [sicRun, statusPhase_noack, sicDispatch]

theorem claim_C10_witness :
    (sicRun (fun _ => some 0) (fun _ => hdrFrame5) 0 false false false exRadio).radio
      = (sicDispatch (fun _ => some 0) false exRadio).radio ∧
    (sicRun (fun _ => some 0) (fun _ => hdrFrame5) 0 false false false exRadio).events
      = (sicDispatch (fun _ => some 0) false exRadio).events ∧
    (sicRun (fun _ => some 0) (fun _ => hdrFrame5) 0 false false false exRadio).decodeCalls
      = (sicDispatch (fun _ => some 0) false exRadio).decodeCalls ∧
    (sicRun (fun _ => some 0) (fun _ => hdrFrame5) 0 false false false exRadio).writes
      = [getStatusWrite (false || false) false 0] ∧
    (false = false →
      (sicRun (fun _ => some 0) (fun _ => hdrFrame5) 0 false false false exRadio).radio = exRadio ∧
      (sicRun (fun _ => some 0) (fun _ => hdrFrame5) 0 false false false exRadio).events = []) :=
  claim_C10_no_intack_no_processing (fun _ => some 0) (fun _ => hdrFrame5) 0 false false exRadio



lemma sicDispatch_empty (decode : SAMEDecoder) (r : Radio) (h : r.same_messages = []) :
    sicDispatch decode true r = ⟨{ r with same_timeout := XTime.inf }, [], []⟩ := by
  simp [sicDispatch, h]

/-- C2: a `SameInterruptCheck` with `dispatch_message` true sets the
next-interrupt deadline to infinity; with a non-empty reception buffer
it hands the accumulated repetitions to the consensus decoder in
exactly one call, empties the buffer, and emits either the
decoded-message event or (on decode failure, which is caught rather
than raised) the malformed-message event carrying the raw repetitions;
with an empty buffer no decode call happens and nothing is emitted. -/
theorem claim_C2_dispatch (decode : SAMEDecoder) (statuses : ℕ → List ℕ) (now : ℚ)
    (intack clearbuf : Bool) (r : Radio) :
    (sicDispatch decode true r).radio.same_timeout = XTime.inf ∧
    (sicDispatch decode true r).radio.same_messages = [] ∧
    (sicRun decode statuses now intack clearbuf true r).decodeCalls
      = (sicDispatch decode true r).decodeCalls ∧
    (r.same_messages = [] →
      (sicDispatch decode true r).decodeCalls = [] ∧
      (sicDispatch decode true r).events = []) ∧
    (r.same_messages ≠ [] →
      (sicDispatch decode true r).decodeCalls = [r.same_messages] ∧
      ((∃ m, decode r.same_messages = some m ∧
          (sicDispatch decode true r).events = [Event.sameMessageReceived m]) ∨
        (decode r.same_messages = none ∧
          (sicDispatch decode true r).events
            = [Event.invalidSameMessageReceived r.same_messages]))) ∧
    (intack = false →
      (sicRun decode statuses now intack clearbuf true r).radio.same_timeout = XTime.inf ∧
      (sicRun decode statuses now intack clearbuf true r).radio.same_messages = [] ∧
      (sicRun decode statuses now intack clearbuf true r).events
        = (sicDispatch decode true r).events) := by
  by_cases hb : r.same_messages = []
  · have hd := sicDispatch_empty decode r hb
    refine ⟨by rw [hd], by rw [hd]; exact hb, rfl, fun _ => ⟨by rw [hd], by rw [hd]⟩,
      fun hne => absurd hb hne, ?_⟩
    rintro rfl
    refine ⟨?_, ?_, ?_⟩ <;> simp [sicRun, statusPhase_noack, hd, hb]
  · obtain ⟨hc, hm, ht⟩ := sicDispatch_nonempty decode r hb
    refine ⟨ht, hm, rfl, fun h => absurd h hb, fun _ => ⟨hc, ?_⟩, ?_⟩
    · cases hdec : decode r.same_messages with
      | some m =>
        exact Or.inl ⟨m, rfl, by
          simp [sicDispatch, List.length_pos.mpr hb, hdec]⟩
      | none =>
        exact Or.inr ⟨rfl, by
          simp [sicDispatch, List.length_pos.mpr hb, hdec]⟩
    · rintro rfl
      refine ⟨?_, ?_, ?_⟩ <;> simp [sicRun, statusPhase_noack, hm, ht]

theorem claim_C2_witness :
    (sicDispatch (fun _ => some 0) true exRadioBuf).radio.same_timeout = XTime.inf ∧
    (sicDispatch (fun _ => some 0) true exRadioBuf).radio.same_messages = [] ∧
    (sicRun (fun _ => some 0) (fun _ => idleFrame) 0 false false true exRadioBuf).decodeCalls
      = (sicDispatch (fun _ => some 0) true exRadioBuf).decodeCalls ∧
    (exRadioBuf.same_messages = [] →
      (sicDispatch (fun _ => some 0) true exRadioBuf).decodeCalls = [] ∧
      (sicDispatch (fun _ => some 0) true exRadioBuf).events = []) ∧
    (exRadioBuf.same_messages ≠ [] →
      (sicDispatch (fun _ => some 0) true exRadioBuf).decodeCalls = [exRadioBuf.same_messages] ∧
      ((∃ m, (fun _ => some 0 : SAMEDecoder) exRadioBuf.same_messages = some m ∧
          (sicDispatch (fun _ => some 0) true exRadioBuf).events = [Event.sameMessageReceived m]) ∨
        ((fun _ => some 0 : SAMEDecoder) exRadioBuf.same_messages = none ∧
          (sicDispatch (fun _ => some 0) true exRadioBuf).events
            = [Event.invalidSameMessageReceived exRadioBuf.same_messages]))) ∧
    (false = false →
      (sicRun (fun _ => some 0) (fun _ => idleFrame) 0 false false true exRadioBuf).radio.same_timeout
        = XTime.inf ∧
      (sicRun (fun _ => some 0) (fun _ => idleFrame) 0 false false true exRadioBuf).radio.same_messages
        = [] ∧
      (sicRun (fun _ => some 0) (fun _ => idleFrame) 0 false false true exRadioBuf).events
        = (sicDispatch (fun _ => some 0) true exRadioBuf).events) :=
  claim_C2_dispatch (fun _ => some 0) (fun _ => idleFrame) 0 false false exRadioBuf

/-- C3: with interrupt-acknowledge set and EOMDET decoded, the
end-of-message notification is deduplicated over a 5-second window:
when the first poll fires (more than 5 seconds past the stored
`last_EOM`), a second EOMDET poll within 5 seconds of it emits
nothing — exactly one notification for the pair — while a second poll
more than 5 seconds later emits again; both polls set the
next-interrupt deadline to 0. -/
theorem claim_C3_eom_dedup (decode : SAMEDecoder) (st1 st2 : ℕ → List ℕ) (t1 t2 : ℚ)
    (cb1 cb2 : Bool) (r : Radio)
    (h1 : (decodeStatus (st1 0)).eomdet = true)
    (h2 : (decodeStatus (st2 0)).eomdet = true)
    (hfirst : t1 - r.last_EOM > 5) :
    (sicRun decode st1 t1 true cb1 false r).events = [Event.endOfMessage] ∧
    (sicRun decode st1 t1 true cb1 false r).radio.same_timeout = XTime.fin 0 ∧
    (sicRun decode st2 t2 true cb2 false
        (sicRun decode st1 t1 true cb1 false r).radio).radio.same_timeout = XTime.fin 0 ∧
    (t2 - t1 ≤ 5 →
      (sicRun decode st1 t1 true cb1 false r).events
          ++ (sicRun decode st2 t2 true cb2 false
                (sicRun decode st1 t1 true cb1 false r).radio).events
        = [Event.endOfMessage]) ∧
    (t2 - t1 > 5 →
      (sicRun decode st2 t2 true cb2 false
          (sicRun decode st1 t1 true cb1 false r).radio).events = [Event.endOfMessage]) := by
  obtain ⟨_, _, hpos1, _⟩ := statusPhase_eomdet st1 t1 cb1 r h1
  have e1 : sicStatusPhase st1 t1 true cb1 r
      = ⟨{ r with same_timeout := XTime.fin 0, last_EOM := t1 },
          [Event.endOfMessage], [getStatusWrite cb1 true 0]⟩ := hpos1 hfirst
  have o1rad : (sicRun decode st1 t1 true cb1 false r).radio
      = { r with same_timeout := XTime.fin 0, last_EOM := t1 } := by
    rw [sicRun_no_dispatch, e1]
  have o1ev : (sicRun decode st1 t1 true cb1 false r).events = [Event.endOfMessage] := by
    rw [sicRun_no_dispatch, e1]
  obtain ⟨_, ht2, hpos2, hneg2⟩ :=
    statusPhase_eomdet st2 t2 cb2 (sicRun decode st1 t1 true cb1 false r).radio h2
  have hlast : (sicRun decode st1 t1 true cb1 false r).radio.last_EOM = t1 := by
    rw [o1rad]
  refine ⟨o1ev, by rw [o1rad], by rw [sicRun_no_dispatch]; exact ht2, ?_, ?_⟩
  · intro hle
    have : ¬ (t2 - (sicRun decode st1 t1 true cb1 false r).radio.last_EOM > 5) := by
      rw [hlast]; linarith
    have e2 := hneg2 this
    rw [o1ev, sicRun_no_dispatch, e2]
    rfl
  · intro hgt
    have : t2 - (sicRun decode st1 t1 true cb1 false r).radio.last_EOM > 5 := by
      rw [hlast]; exact hgt
    have e2 := hpos2 this
    rw [sicRun_no_dispatch, e2]

theorem claim_C3_witness :
    (decodeStatus ((fun _ => eomFrame : ℕ → List ℕ) 0)).eomdet = true ∧
    (10 : ℚ) - exRadio.last_EOM > 5 ∧
    ((sicRun (fun _ => some 0) (fun _ => eomFrame) 10 true false false exRadio).events
        = [Event.endOfMessage] ∧
      (sicRun (fun _ => some 0) (fun _ => eomFrame) 10 true false false exRadio).radio.same_timeout
        = XTime.fin 0 ∧
      (sicRun (fun _ => some 0) (fun _ => eomFrame) 12 true false false
          (sicRun (fun _ => some 0) (fun _ => eomFrame) 10 true false false exRadio).radio).radio.same_timeout
        = XTime.fin 0 ∧
      ((12 : ℚ) - 10 ≤ 5 →
        (sicRun (fun _ => some 0) (fun _ => eomFrame) 10 true false false exRadio).events
            ++ (sicRun (fun _ => some 0) (fun _ => eomFrame) 12 true false false
                  (sicRun (fun _ => some 0) (fun _ => eomFrame) 10 true false false exRadio).radio).events
          = [Event.endOfMessage]) ∧
      ((12 : ℚ) - 10 > 5 →
        (sicRun (fun _ => some 0) (fun _ => eomFrame) 12 true false false
            (sicRun (fun _ => some 0) (fun _ => eomFrame) 10 true false false exRadio).radio).events
          = [Event.endOfMessage])) :=
  ⟨rfl, by norm_num [exRadio], claim_C3_eom_dedup (fun _ => some 0) (fun _ => eomFrame)
    (fun _ => eomFrame) 10 12 false false exRadio rfl rfl (by norm_num [exRadio])⟩



/-- C1 (counterexample): polling a header-ready frame with declared
message length 5 stores a symbol sequence of 6 symbols — the code keeps
`msg[0:msg_len + 1]` (line 402), one more than the declared length —
so the claim's "truncates the symbol and confidence sequences to the
declared length" is false at this input. -/
theorem claim_C1_counterexample :
    (decodeStatus hdrFrame5).msglen = 5 ∧
    (sicRun (fun _ => none) (fun _ => hdrFrame5) 0 true false false exRadio).radio.same_messages
      = [([65, 66, 67, 68, 69, 70], [0, 0, 0, 0, 0, 0])] ∧
    ¬ (sicRun (fun _ => none) (fun _ => hdrFrame5) 0 true false false exRadio).radio.same_messages
      = [([65, 66, 67, 68, 69], [0, 0, 0, 0, 0])] := by
  decide

/-- C1 (amended): on a header-ready poll with interrupt-acknowledge
set, the machine re-reads status at incrementing read-offsets (8, 16,
...) until the assembled symbol sequence reaches the declared length,
truncates symbols and confidence to the declared length PLUS ONE,
appends the pair to the reception buffer, issues the chip buffer-clear
request as the final bus write, sets the next-interrupt deadline to
now + 6, and emits the header-received event carrying the accumulated
repetitions. -/
theorem claim_C1_amended (decode : SAMEDecoder) (statuses : ℕ → List ℕ)
    (h14 : ∀ k, (statuses k).length = 14) (now : ℚ) (clearbuf : Bool) (r : Radio)
    (hh : (decodeStatus (statuses 0)).hdrrdy = true)
    (he : (decodeStatus (statuses 0)).eomdet = false)
    (hp : (decodeStatus (statuses 0)).predet = false) :
    ∃ (msgFull confFull : List ℕ) (n : ℕ),
      msgFull.length = 8 + 8 * n ∧
      confFull.length = 8 + 8 * n ∧
      (decodeStatus (statuses 0)).msglen ≤ msgFull.length ∧
      (sicRun decode statuses now true clearbuf false r).radio.same_messages
        = r.same_messages
            ++ [(msgFull.take ((decodeStatus (statuses 0)).msglen + 1),
                 confFull.take ((decodeStatus (statuses 0)).msglen + 1))] ∧
      (sicRun decode statuses now true clearbuf false r).radio.same_timeout
        = XTime.fin (now + 6) ∧
      (sicRun decode statuses now true clearbuf false r).events
        = [Event.sameHeaderReceived
            ((sicRun decode statuses now true clearbuf false r).radio.same_messages)] ∧
      (sicRun decode statuses now true clearbuf false r).writes
        = getStatusWrite clearbuf true 0
            :: ((List.range n).map fun j => getStatusWrite false false (8 + 8 * j))
            ++ [getStatusWrite true false 0] ∧
      (sicRun decode statuses now true clearbuf false r).decodeCalls = [] := by
  obtain ⟨msgFull, confFull, n, hl1, hl2, hge, hphase⟩ :=
    statusPhase_hdrrdy statuses h14 now clearbuf r hh he hp
  refine ⟨msgFull, confFull, n, hl1, hl2, hge, ?_, ?_, ?_, ?_, ?_⟩ <;>
    rw [sicRun_no_dispatch, hphase]

theorem claim_C1_amended_witness :
    (∀ k, ((fun _ => hdrFrame5 : ℕ → List ℕ) k).length = 14) ∧
    (decodeStatus ((fun _ => hdrFrame5 : ℕ → List ℕ) 0)).hdrrdy = true ∧
    (decodeStatus ((fun _ => hdrFrame5 : ℕ → List ℕ) 0)).eomdet = false ∧
    (decodeStatus ((fun _ => hdrFrame5 : ℕ → List ℕ) 0)).predet = false ∧
    (∃ (msgFull confFull : List ℕ) (n : ℕ),
      msgFull.length = 8 + 8 * n ∧
      confFull.length = 8 + 8 * n ∧
      (decodeStatus ((fun _ => hdrFrame5 : ℕ → List ℕ) 0)).msglen ≤ msgFull.length ∧
      (sicRun (fun _ => none) (fun _ => hdrFrame5) 7 true false false exRadio).radio.same_messages
        = exRadio.same_messages
            ++ [(msgFull.take ((decodeStatus ((fun _ => hdrFrame5 : ℕ → List ℕ) 0)).msglen + 1),
                 confFull.take ((decodeStatus ((fun _ => hdrFrame5 : ℕ → List ℕ) 0)).msglen + 1))] ∧
      (sicRun (fun _ => none) (fun _ => hdrFrame5) 7 true false false exRadio).radio.same_timeout
        = XTime.fin (7 + 6) ∧
      (sicRun (fun _ => none) (fun _ => hdrFrame5) 7 true false false exRadio).events
        = [Event.sameHeaderReceived
            ((sicRun (fun _ => none) (fun _ => hdrFrame5) 7 true false false exRadio).radio.same_messages)] ∧
      (sicRun (fun _ => none) (fun _ => hdrFrame5) 7 true false false exRadio).writes
        = getStatusWrite false true 0
            :: ((List.range n).map fun j => getStatusWrite false false (8 + 8 * j))
            ++ [getStatusWrite true false 0] ∧
      (sicRun (fun _ => none) (fun _ => hdrFrame5) 7 true false false exRadio).decodeCalls = []) :=
  ⟨fun _ => rfl, rfl, rfl, rfl,
    claim_C1_amended (fun _ => none) (fun _ => hdrFrame5) (fun _ => rfl) 7 false exRadio rfl rfl rfl⟩



lemma sicRun_radio_noack (decode : SAMEDecoder) (statuses : ℕ → List ℕ) (now : ℚ)
    (clearbuf dispatch : Bool) (r : Radio) :
    (sicRun decode statuses now false clearbuf dispatch r).radio
      = (sicDispatch decode dispatch r).radio := by
  simp [sicRun, statusPhase_noack]

/-- C8 (counterexample): starting from an empty buffer, three
header-ready polls followed by one EOMDET poll trigger NO
consensus-decode call, and the reception buffer still holds the 3
repetitions afterwards: the EOMDET branch only sets the deadline to 0
(line 388, "it'll get processed shortly") — decoding happens on a later
dispatch poll, not on the EOMDET poll itself. -/
theorem claim_C8_counterexample :
    c8poll1.decodeCalls = [] ∧ c8poll2.decodeCalls = [] ∧ c8poll3.decodeCalls = [] ∧
    c8poll4.decodeCalls = [] ∧
    c8poll4.radio.same_messages.length = 3 ∧
    ¬ c8poll4.radio.same_messages = [] := by
  have h4 : c8poll4.radio.same_messages = c8poll3.radio.same_messages := by
    unfold c8poll4
    rw [sicRun_no_dispatch]
    exact (statusPhase_eomdet (fun _ => eomFrame) 0 false c8poll3.radio rfl).1
  refine ⟨rfl, rfl, rfl, rfl, ?_, ?_⟩
  · rw [h4]; decide
  · rw [h4]; decide

/-- C8 (amended): three header-ready polls followed by one EOMDET poll
leave exactly 3 repetitions in the buffer and call the decoder zero
times; the decode happens on the subsequent dispatch request
(`dispatch_message=True`, issued by `AlertToneCheck` once the EOMDET
poll has set the deadline to 0): that dispatch makes exactly one
consensus-decode call with exactly the 3 repetitions and empties the
buffer. -/
theorem claim_C8_amended (decode : SAMEDecoder) (s1 s2 s3 sE sD : ℕ → List ℕ)
    (t1 t2 t3 t4 t5 : ℚ) (r0 : Radio)
    (hbuf : r0.same_messages = [])
    (h14a : ∀ k, (s1 k).length = 14)
    (hh1 : (decodeStatus (s1 0)).hdrrdy = true)
    (he1 : (decodeStatus (s1 0)).eomdet = false)
    (hp1 : (decodeStatus (s1 0)).predet = false)
    (h14b : ∀ k, (s2 k).length = 14)
    (hh2 : (decodeStatus (s2 0)).hdrrdy = true)
    (he2 : (decodeStatus (s2 0)).eomdet = false)
    (hp2 : (decodeStatus (s2 0)).predet = false)
    (h14c : ∀ k, (s3 k).length = 14)
    (hh3 : (decodeStatus (s3 0)).hdrrdy = true)
    (he3 : (decodeStatus (s3 0)).eomdet = false)
    (hp3 : (decodeStatus (s3 0)).predet = false)
    (hE : (decodeStatus (sE 0)).eomdet = true)
    (o1 o2 o3 o4 o5 : SICOut)
    (ho1 : o1 = sicRun decode s1 t1 true false false r0)
    (ho2 : o2 = sicRun decode s2 t2 true false false o1.radio)
    (ho3 : o3 = sicRun decode s3 t3 true false false o2.radio)
    (ho4 : o4 = sicRun decode sE t4 true false false o3.radio)
    (ho5 : o5 = sicRun decode sD t5 false false true o4.radio) :
    o1.decodeCalls = [] ∧ o2.decodeCalls = [] ∧ o3.decodeCalls = [] ∧ o4.decodeCalls = [] ∧
    (∃ p1 p2 p3, o4.radio.same_messages = [p1, p2, p3] ∧ o5.decodeCalls = [[p1, p2, p3]]) ∧
    o5.radio.same_messages = [] := by
  obtain ⟨m1, c1, n1, -, -, -, hph1⟩ := statusPhase_hdrrdy s1 h14a t1 false r0 hh1 he1 hp1
  have b1 : o1.radio.same_messages
      = [(m1.take ((decodeStatus (s1 0)).msglen + 1), c1.take ((decodeStatus (s1 0)).msglen + 1))] := by
    rw [ho1, sicRun_no_dispatch, hph1]
    simp [hbuf]
  obtain ⟨m2, c2, n2, -, -, -, hph2⟩ := statusPhase_hdrrdy s2 h14b t2 false o1.radio hh2 he2 hp2
  have b2 : o2.radio.same_messages
      = o1.radio.same_messages
          ++ [(m2.take ((decodeStatus (s2 0)).msglen + 1), c2.take ((decodeStatus (s2 0)).msglen + 1))] := by
    rw [ho2, sicRun_no_dispatch, hph2]
  obtain ⟨m3, c3, n3, -, -, -, hph3⟩ := statusPhase_hdrrdy s3 h14c t3 false o2.radio hh3 he3 hp3
  have b3 : o3.radio.same_messages
      = o2.radio.same_messages
          ++ [(m3.take ((decodeStatus (s3 0)).msglen + 1), c3.take ((decodeStatus (s3 0)).msglen + 1))] := by
    rw [ho3, sicRun_no_dispatch, hph3]
  have b4 : o4.radio.same_messages = o3.radio.same_messages := by
    rw [ho4, sicRun_no_dispatch]
    exact (statusPhase_eomdet sE t4 false o3.radio hE).1
  have blist : o4.radio.same_messages
      = [(m1.take ((decodeStatus (s1 0)).msglen + 1), c1.take ((decodeStatus (s1 0)).msglen + 1)),
          (m2.take ((decodeStatus (s2 0)).msglen + 1), c2.take ((decodeStatus (s2 0)).msglen + 1)),
          (m3.take ((decodeStatus (s3 0)).msglen + 1), c3.take ((decodeStatus (s3 0)).msglen + 1))] := by
    rw [b4, b3, b2, b1]
    rfl
  have hne : o4.radio.same_messages ≠ [] := by
    rw [blist]
    exact List.cons_ne_nil _ _
  obtain ⟨hc5, hm5, -⟩ := sicDispatch_nonempty decode o4.radio hne
  refine ⟨by rw [ho1]; rfl, by rw [ho2]; rfl, by rw [ho3]; rfl, by rw [ho4]; rfl, ?_, ?_⟩
  · refine ⟨_, _, _, blist, ?_⟩
    rw [ho5, sicRun_decodeCalls, hc5, blist]
  · rw [ho5, sicRun_radio_noack]
    exact hm5



theorem claim_C8_amended_witness :
    exRadio.same_messages = [] ∧
    (∀ k, ((fun _ => hdrFrame5 : ℕ → List ℕ) k).length = 14) ∧
    (decodeStatus hdrFrame5).hdrrdy = true ∧
    (decodeStatus hdrFrame5).eomdet = false ∧
    (decodeStatus hdrFrame5).predet = false ∧
    (decodeStatus eomFrame).eomdet = true ∧
    c8poll1 = sicRun (fun _ => some 0) (fun _ => hdrFrame5) 0 true false false exRadio ∧
    c8poll2 = sicRun (fun _ => some 0) (fun _ => hdrFrame5) 0 true false false c8poll1.radio ∧
    c8poll3 = sicRun (fun _ => some 0) (fun _ => hdrFrame5) 0 true false false c8poll2.radio ∧
    c8poll4 = sicRun (fun _ => some 0) (fun _ => eomFrame) 0 true false false c8poll3.radio ∧
    c8poll5 = sicRun (fun _ => some 0) (fun _ => idleFrame) 0 false false true c8poll4.radio ∧
    (c8poll1.decodeCalls = [] ∧ c8poll2.decodeCalls = [] ∧ c8poll3.decodeCalls = [] ∧
      c8poll4.decodeCalls = [] ∧
      (∃ p1 p2 p3, c8poll4.radio.same_messages = [p1, p2, p3] ∧
        c8poll5.decodeCalls = [[p1, p2, p3]]) ∧
      c8poll5.radio.same_messages = []) :=
  ⟨rfl, fun _ => rfl, rfl, rfl, rfl, rfl, rfl, rfl, rfl, rfl, rfl,
    claim_C8_amended (fun _ => some 0) (fun _ => hdrFrame5) (fun _ => hdrFrame5)
      (fun _ => hdrFrame5) (fun _ => eomFrame) (fun _ => idleFrame) 0 0 0 0 0 exRadio rfl
      (fun _ => rfl) rfl rfl rfl (fun _ => rfl) rfl rfl rfl (fun _ => rfl) rfl rfl rfl rfl
      c8poll1 c8poll2 c8poll3 c8poll4 c8poll5 rfl rfl rfl rfl rfl⟩



lemma getD_drop_zero (l : List ℕ) (n i : ℕ) : (l.drop n).getD i 0 = l.getD (n + i) 0 := by
  simp [List.getD_eq_getElem?_getD, List.getElem?_drop]

lemma extract2bit (x k : ℕ) : (x >>> k) &&& 3 = x / 2 ^ k % 4 := by
  rw [Nat.shiftRight_eq_div_pow]
  simpa using Nat.and_pow_two_sub_one_eq_mod (x / 2 ^ k) 2

lemma and3_eq_mod (x : ℕ) : x &&& 3 = x % 4 := by
  simpa using Nat.and_pow_two_sub_one_eq_mod x 2

/-- C4: the decoded confidence for symbol `i` is the 2-bit field in
byte `(7 - i) / 4` of the confidence region (the bytes from offset 4 of
the 14-byte frame) at bit offset `(i % 4) * 2`; packing any
`c0..c7 ∈ [0,3]` by that layout and decoding yields exactly
`c0..c7`. -/
theorem claim_C4_confidence_roundtrip (data : List ℕ) (i : ℕ) (hi : i < 8)
    (c : Fin 8 → ℕ) (hc : ∀ j, c j ≤ 3) :
    (decodeStatus data).confidence.getD i 0
      = ((confRegion data).getD ((7 - i) / 4) 0 >>> (i % 4 * 2)) &&& 3 ∧
    (decodeStatus (encodeConfidence c)).confidence
      = [c 0, c 1, c 2, c 3, c 4, c 5, c 6, c 7] := by
  have hrange : List.range 8 = [0, 1, 2, 3, 4, 5, 6, 7] := rfl
  constructor
  · interval_cases i <;>
      simp [decodeStatus, hrange, confRegion, List.getD_eq_getElem?_getD, List.getElem?_drop]
  · have h0 := hc 0
    have h1 := hc 1
    have h2 := hc 2
    have h3 := hc 3
    have h4 := hc 4
    have h5 := hc 5
    have h6 := hc 6
    have h7 := hc 7
    simp only [decodeStatus, encodeConfidence, hrange, List.map_cons, List.map_nil]
    refine List.ext_getElem (by simp) ?_
    intro k hk1 hk2
    have hk8 : k < 8 := by simpa using hk2
    interval_cases k <;>
      · simp [extract2bit, and3_eq_mod]
        omega



theorem claim_C4_witness :
    (3 : ℕ) < 8 ∧ (∀ j, exConf j ≤ 3) ∧
    ((decodeStatus hdrFrame5).confidence.getD 3 0
        = ((confRegion hdrFrame5).getD ((7 - 3) / 4) 0 >>> (3 % 4 * 2)) &&& 3 ∧
      (decodeStatus (encodeConfidence exConf)).confidence
        = [exConf 0, exConf 1, exConf 2, exConf 3, exConf 4, exConf 5, exConf 6, exConf 7]) :=
  ⟨by decide, by decide, claim_C4_confidence_roundtrip hdrFrame5 3 (by decide) exConf (by decide)⟩

/-- C5: for any in-range frequency, the tune command encodes
`int(400 * f)`, whose value lies in [64960, 65020]; its final phase
succeeds exactly when the confirmed frequency of the acknowledged
status equals the request, returning `(rssi, snr, frequency / 400)`,
and fails (raises) on any mismatch. -/
theorem claim_C5_tune_verify (f : ℚ) (h1 : 162.4 ≤ f) (h2 : f ≤ 162.55) (bl : List ℕ) :
    tuneEncode f = ⌊400 * f⌋ ∧
    64960 ≤ tuneEncode f ∧ tuneEncode f ≤ 65020 ∧
    ((∃ v, tuneFrequencyFinish (tuneEncode f) bl = Except.ok v) ↔
      ((tuneStatusDecode bl).frequency : ℤ) = tuneEncode f) ∧
    (((tuneStatusDecode bl).frequency : ℤ) = tuneEncode f →
      tuneFrequencyFinish (tuneEncode f) bl
        = Except.ok ((tuneStatusDecode bl).rssi, (tuneStatusDecode bl).snr,
            ((tuneStatusDecode bl).frequency : ℚ) / 400)) ∧
    (((tuneStatusDecode bl).frequency : ℤ) ≠ tuneEncode f →
      tuneFrequencyFinish (tuneEncode f) bl = Except.error ()) := by
  refine ⟨rfl, ?_, ?_, ?_, ?_, ?_⟩
  · rw [tuneEncode, Int.le_floor]
    push_cast
    nlinarith
  · have hle : (400 : ℚ) * f ≤ ((65020 : ℤ) : ℚ) := by push_cast; nlinarith
    calc tuneEncode f = ⌊(400 : ℚ) * f⌋ := rfl
      _ ≤ ⌊((65020 : ℤ) : ℚ)⌋ := Int.floor_mono hle
      _ = 65020 := Int.floor_intCast _
  · by_cases hfq : ((tuneStatusDecode bl).frequency : ℤ) = tuneEncode f <;>
      simp [tuneFrequencyFinish, hfq]
  · intro hfq
    simp [tuneFrequencyFinish, hfq]
  · intro hfq
    simp [tuneFrequencyFinish, hfq]

theorem claim_C5_witness :
    (162.4 : ℚ) ≤ 162.5 ∧ (162.5 : ℚ) ≤ 162.55 ∧
    (tuneEncode 162.5 = ⌊(400 : ℚ) * 162.5⌋ ∧
      64960 ≤ tuneEncode 162.5 ∧ tuneEncode 162.5 ≤ 65020 ∧
      ((∃ v, tuneFrequencyFinish (tuneEncode 162.5) [] = Except.ok v) ↔
        ((tuneStatusDecode []).frequency : ℤ) = tuneEncode 162.5) ∧
      (((tuneStatusDecode []).frequency : ℤ) = tuneEncode 162.5 →
        tuneFrequencyFinish (tuneEncode 162.5) []
          = Except.ok ((tuneStatusDecode []).rssi, (tuneStatusDecode []).snr,
              ((tuneStatusDecode []).frequency : ℚ) / 400)) ∧
      (((tuneStatusDecode []).frequency : ℤ) ≠ tuneEncode 162.5 →
        tuneFrequencyFinish (tuneEncode 162.5) [] = Except.error ())) :=
  ⟨by norm_num, by norm_num, claim_C5_tune_verify 162.5 (by norm_num) (by norm_num) []⟩

/-- C6 (counterexample): `PowerDown` extends `CommandRequiringPowerUp`
(line 218), so — contrary to the claim that the power-up/down pair is
unguarded — a `PowerDown` submitted with the power flag false fails
with the not-powered error before any bus operation. -/
theorem claim_C6_counterexample :
    requiresPowerUp CmdKind.powerDown = true ∧
    runWithPowerGuard CmdKind.powerDown false ([[0x11, 0]], Except.ok 0)
      = ([], Except.error CmdFailure.notPowered) :=
  ⟨rfl, rfl⟩

/-- C6 (amended): every command except `PowerUp` (and its patch
variant, which extends it) refuses to run while the power flag is
false, failing with the not-powered error and performing zero bus
operations; `PowerUp`/`PatchCommand` run their body regardless, and
every guarded command runs its body when powered. -/
theorem claim_C6_amended (k : CmdKind) (body : List (List ℕ) × Except CmdFailure ℕ)
    (hk1 : k ≠ CmdKind.powerUp) (hk2 : k ≠ CmdKind.patchCommand) :
    runWithPowerGuard k false body = ([], Except.error CmdFailure.notPowered) ∧
    (∀ p : Bool, ∀ b : List (List ℕ) × Except CmdFailure ℕ,
      runWithPowerGuard CmdKind.powerUp p b = b) ∧
    (∀ p : Bool, ∀ b : List (List ℕ) × Except CmdFailure ℕ,
      runWithPowerGuard CmdKind.patchCommand p b = b) ∧
    (∀ b : List (List ℕ) × Except CmdFailure ℕ, runWithPowerGuard k true b = b) := by
  refine ⟨?_, fun p b => by simp [runWithPowerGuard, requiresPowerUp],
    fun p b => by simp [runWithPowerGuard, requiresPowerUp],
    fun b => by simp [runWithPowerGuard]⟩
  cases k <;> first
    | exact absurd rfl hk1
    | exact absurd rfl hk2
    | simp [runWithPowerGuard, requiresPowerUp]

theorem claim_C6_amended_witness :
    CmdKind.powerDown ≠ CmdKind.powerUp ∧
    CmdKind.powerDown ≠ CmdKind.patchCommand ∧
    (runWithPowerGuard CmdKind.powerDown false ([[0x11, 0]], Except.ok 0)
        = ([], Except.error CmdFailure.notPowered) ∧
      (∀ p : Bool, ∀ b : List (List ℕ) × Except CmdFailure ℕ,
        runWithPowerGuard CmdKind.powerUp p b = b) ∧
      (∀ p : Bool, ∀ b : List (List ℕ) × Except CmdFailure ℕ,
        runWithPowerGuard CmdKind.patchCommand p b = b) ∧
      (∀ b : List (List ℕ) × Except CmdFailure ℕ,
        runWithPowerGuard CmdKind.powerDown true b = b)) :=
  ⟨by decide, by decide,
    claim_C6_amended CmdKind.powerDown ([[0x11, 0]], Except.ok 0) (by decide) (by decide)⟩

/-- C7: `Command.do_command` always releases the future and records the
completion time; with a future attached, the outcome (value or
exception) is delivered through the future and never re-raised; with no
future attached, a failure is re-raised to the caller and a success
simply lands in the result slot. -/
theorem claim_C7_outcome_delivery (cs : CommandState) (body : Except Unit ℕ) (now : ℚ) :
    (doCommand cs body now).state.future = none ∧
    (doCommand cs body now).state.time_complete = some now ∧
    (cs.future.isSome = true →
      (doCommand cs body now).raised = false ∧
      (∀ v, body = Except.ok v →
        (doCommand cs body now).futureResult = some v ∧
        (doCommand cs body now).state.result = some v) ∧
      (∀ e, body = Except.error e → (doCommand cs body now).futureException = true)) ∧
    (cs.future = none →
      (doCommand cs body now).futureResult = none ∧
      (doCommand cs body now).futureException = false ∧
      (∀ e, body = Except.error e → (doCommand cs body now).raised = true) ∧
      (∀ v, body = Except.ok v → (doCommand cs body now).raised = false)) := by
  cases body with
  | ok v =>
    refine ⟨rfl, rfl, fun hf => ?_, fun hf => ?_⟩
    · refine ⟨rfl, ?_, ?_⟩
      · intro w hw
        cases hw
        exact ⟨by simp [doCommand, hf], rfl⟩
      · intro e he
        exact Except.noConfusion he
    · refine ⟨?_, rfl, ?_, ?_⟩
      · simp [doCommand, hf]
      · intro e he
        exact Except.noConfusion he
      · intro w hw
        rfl
  | error e =>
    refine ⟨rfl, rfl, fun hf => ?_, fun hf => ?_⟩
    · refine ⟨?_, ?_, ?_⟩
      · simp [doCommand, hf]
      · intro w hw
        exact Except.noConfusion hw
      · intro e2 he
        simp [doCommand, hf]
    · refine ⟨rfl, ?_, ?_, ?_⟩
      · simp [doCommand, hf]
      · intro e2 he
        simp [doCommand, hf]
      · intro w hw
        exact Except.noConfusion hw

theorem claim_C7_witness :
    (doCommand exCmdState (Except.ok 9) 3).state.future = none ∧
    (doCommand exCmdState (Except.ok 9) 3).state.time_complete = some 3 ∧
    (exCmdState.future.isSome = true →
      (doCommand exCmdState (Except.ok 9) 3).raised = false ∧
      (∀ v, (Except.ok 9 : Except Unit ℕ) = Except.ok v →
        (doCommand exCmdState (Except.ok 9) 3).futureResult = some v ∧
        (doCommand exCmdState (Except.ok 9) 3).state.result = some v) ∧
      (∀ e, (Except.ok 9 : Except Unit ℕ) = Except.error e →
        (doCommand exCmdState (Except.ok 9) 3).futureException = true)) ∧
    (exCmdState.future = none →
      (doCommand exCmdState (Except.ok 9) 3).futureResult = none ∧
      (doCommand exCmdState (Except.ok 9) 3).futureException = false ∧
      (∀ e, (Except.ok 9 : Except Unit ℕ) = Except.error e →
        (doCommand exCmdState (Except.ok 9) 3).raised = true) ∧
      (∀ v, (Except.ok 9 : Except Unit ℕ) = Except.ok v →
        (doCommand exCmdState (Except.ok 9) 3).raised = false)) :=
  claim_C7_outcome_delivery exCmdState (Except.ok 9) 3

end Si4707
